import Mathlib

/-!
Verification development for the core of `react-scroll-media`.

The definitions below are shallow embeddings of the library's core logic:

* the sequence resolver (`src/types.ts`, hardened variant:
  `validateFrameUrl`, `sanitizeFrameUrls`, `getMaxFrames`,
  `processManualFrames`, `processPatternMode`, `processManifestMode`,
  `extractNumber`),
* the frame controller (`src/controllers/imageController.ts`:
  `ensureFrameWindow`, `preloadFrame`, `update`, `drawFrame`, the image
  load completion path),
* the scroll timeline progress computation
  (`src/core/scrollTimeline.ts`: `calculateProgress`).

JavaScript numbers are modelled as exact rationals (`ℚ`), JS integers as
`Int`/`Nat`.  JS `Map`s are modelled as association lists in insertion
order, and JS string handling is modelled character-listwise so that all
definitions are executable.
-/

/-- The characters removed by JavaScript `String.prototype.trim`:
ECMA-262 WhiteSpace (TAB, VT, FF, SP, NBSP, ZWNBSP and the Zs space
separators) and LineTerminator (LF, CR, LS, PS). -/
def isJsWhitespace (c : Char) : Bool :=
  let n := c.toNat
  n = 0x09 || n = 0x0A || n = 0x0B || n = 0x0C || n = 0x0D || n = 0x20 ||
  n = 0xA0 || n = 0x1680 || (0x2000 ≤ n && n ≤ 0x200A) || n = 0x2028 ||
  n = 0x2029 || n = 0x202F || n = 0x205F || n = 0x3000 || n = 0xFEFF

/-- Model of JavaScript `String.prototype.trim`: strip the full JS
whitespace set (including U+00A0 and U+FEFF) from both ends. -/
def jsTrim (s : String) : String :=
  String.mk (((s.data.dropWhile isJsWhitespace).reverse.dropWhile
    isJsWhitespace).reverse)

/-- Model of JavaScript `String.prototype.startsWith`. -/
def jsStartsWith (s pre : String) : Bool :=
  pre.data.isPrefixOf s.data

/-- A C0 control or space (code point ≤ U+0020). -/
def isC0OrSpace (c : Char) : Bool := c.toNat ≤ 0x20

/-- The WHATWG URL parser input preprocessing: remove leading and
trailing C0 controls and spaces, then remove every ASCII tab or newline
(TAB, LF, CR) from the input. -/
def urlPreprocess (cs : List Char) : List Char :=
  (((cs.dropWhile isC0OrSpace).reverse.dropWhile isC0OrSpace).reverse).filter
    (fun c => !(c = '\t' || c = '\n' || c = '\r'))

/-- A character that may start a URL scheme (WHATWG: ASCII alpha). -/
def isSchemeStartChar (c : Char) : Bool := c.isAlpha

/-- A character that may continue a URL scheme (WHATWG: ASCII
alphanumeric, `+`, `-` or `.`). -/
def isSchemeChar (c : Char) : Bool :=
  c.isAlphanum || c = '+' || c = '-' || c = '.'

/-- The WHATWG scheme state on preprocessed input: when the input begins
with a syntactically valid scheme followed by `:`, return the scheme
(lowercased) and the remainder; otherwise the input has no scheme. -/
def schemeSplit (cs : List Char) : Option (String × List Char) :=
  let pre := cs.takeWhile (fun c => c ≠ ':')
  if pre.length = cs.length then none
  else
    match pre with
    | [] => none
    | c :: rest =>
      if isSchemeStartChar c && rest.all isSchemeChar then
        some (String.mk ((c :: rest).map Char.toLower), cs.drop (pre.length + 1))
      else none

/-- For special schemes the WHATWG parser treats `\` like `/`. -/
def isSlashLike (c : Char) : Bool := c = '/' || c = '\\'

/-- Whether the input begins with two slash-like characters, which for a
special (base) scheme routes parsing into the authority states. -/
def twoSlashStart (cs : List Char) : Bool :=
  match cs with
  | a :: b :: _ => isSlashLike a && isSlashLike b
  | _ => false

/-- The authority substring for a special scheme: the
special-authority-ignore-slashes state skips every leading `/` or `\`,
and the authority ends at the first `/`, `\`, `?` or `#`. -/
def authorityOf (rest : List Char) : List Char :=
  (rest.dropWhile isSlashLike).takeWhile
    (fun c => !(c = '/' || c = '\\' || c = '?' || c = '#'))

/-- The authority state treats everything before the *last* `@` as
userinfo (which never fails); the host-port part follows it. -/
def afterLastAt (auth : List Char) : List Char :=
  (auth.reverse.takeWhile (fun c => c ≠ '@')).reverse

/-- An ASCII hex digit. -/
def isHexDigitChar (c : Char) : Bool :=
  c.isDigit || ('a' ≤ c && c ≤ 'f') || ('A' ≤ c && c ≤ 'F')

/-- The value of an ASCII hex digit. -/
def hexDigitVal (c : Char) : Nat :=
  if c.isDigit then c.toNat - 48
  else if 'a' ≤ c && c ≤ 'f' then c.toNat - 87
  else c.toNat - 55

/-- WHATWG percent-decoding: valid `%XX` triples become the decoded byte
(taken here as a code point), anything else passes through. -/
def percentDecode : List Char → List Char
  | [] => []
  | '%' :: h1 :: h2 :: rest =>
    if isHexDigitChar h1 && isHexDigitChar h2 then
      Char.ofNat (16 * hexDigitVal h1 + hexDigitVal h2) :: percentDecode rest
    else '%' :: percentDecode (h1 :: h2 :: rest)
  | c :: rest => c :: percentDecode rest

/-- The WHATWG forbidden domain code points: C0 controls, space, `#`,
`%`, `/`, `:`, `<`, `>`, `?`, `@`, `[`, `\`, `]`, `^`, `|` and DEL. -/
def isForbiddenDomainChar (c : Char) : Bool :=
  c.toNat ≤ 0x1F || c = ' ' || c = '#' || c = '%' || c = '/' || c = ':' ||
  c = '<' || c = '>' || c = '?' || c = '@' || c = '[' || c = '\\' ||
  c = ']' || c = '^' || c = '|' || c.toNat = 0x7F

/-- An ASCII octal digit. -/
def isOctalDigit (c : Char) : Bool := '0' ≤ c && c ≤ '7'

/-- The numeric value of a digit string in the given radix. -/
def digitsVal (radix : Nat) (cs : List Char) : Nat :=
  cs.foldl (fun n c => radix * n + hexDigitVal c) 0

/-- The WHATWG IPv4 number parser: `0x`/`0X` selects hexadecimal (empty
digits meaning 0), a leading `0` selects octal, otherwise decimal;
invalid digits are a failure. -/
def parseIPv4Number (cs : List Char) : Option Nat :=
  match cs with
  | [] => none
  | '0' :: 'x' :: rest =>
    if rest = [] then some 0
    else if rest.all isHexDigitChar then some (digitsVal 16 rest) else none
  | '0' :: 'X' :: rest =>
    if rest = [] then some 0
    else if rest.all isHexDigitChar then some (digitsVal 16 rest) else none
  | ['0'] => some 0
  | '0' :: rest =>
    if rest.all isOctalDigit then some (digitsVal 8 rest) else none
  | _ =>
    if cs.all Char.isDigit then some (digitsVal 10 cs) else none

/-- Split a character list on a separator (like `String.split` keeping
empty parts). -/
def splitOnChar (sep : Char) : List Char → List (List Char)
  | [] => [[]]
  | c :: rest =>
    let r := splitOnChar sep rest
    if c = sep then [] :: r
    else
      match r with
      | [] => [[c]]
      | x :: xs => (c :: x) :: xs

/-- The WHATWG "ends in a number" checker that decides whether a domain
is handed to the IPv4 parser. -/
def endsInNumber (host : List Char) : Bool :=
  let parts := splitOnChar '.' host
  let parts2 := if parts.getLast? = some [] then parts.dropLast else parts
  match parts2.getLast? with
  | none => false
  | some l =>
    if l ≠ [] && l.all Char.isDigit then true
    else (parseIPv4Number l).isSome

/-- The WHATWG IPv4 parser's accept/reject behaviour: at most four
dot-separated numbers (one trailing dot allowed), every number but the
last at most 255, and the last below `256^(5 - count)`. -/
def ipv4Valid (host : List Char) : Bool :=
  let parts0 := splitOnChar '.' host
  let parts := if parts0.length > 1 && parts0.getLast? = some [] then
    parts0.dropLast else parts0
  if parts.length > 4 then false
  else
    match parts.mapM parseIPv4Number with
    | none => false
    | some numbers =>
      numbers.dropLast.all (fun n => decide (n ≤ 255)) &&
      (match numbers.getLast? with
       | none => false
       | some l => decide (l < 256 ^ (5 - numbers.length)))

/-- A plain IPv6 piece: one to four hex digits. -/
def ipv6PieceValid (cs : List Char) : Bool :=
  decide (cs ≠ []) && decide (cs.length ≤ 4) && cs.all isHexDigitChar

/-- One part of an IPv4 address embedded in an IPv6 address: decimal,
no leading zero. -/
def ipv6Ipv4PartVal (cs : List Char) : Option Nat :=
  match cs with
  | [] => none
  | ['0'] => some 0
  | '0' :: _ => none
  | _ => if cs.all Char.isDigit then some (digitsVal 10 cs) else none

/-- An IPv4 address embedded as the final IPv6 piece: exactly four
decimal parts, each at most 255. -/
def ipv6EmbeddedIpv4 (cs : List Char) : Bool :=
  let parts := splitOnChar '.' cs
  decide (parts.length = 4) && parts.all (fun p =>
    match ipv6Ipv4PartVal p with
    | some v => decide (v ≤ 255)
    | none => false)

/-- The final IPv6 piece may be a hex piece or an embedded IPv4. -/
def ipv6LastPieceValid (cs : List Char) : Bool :=
  ipv6PieceValid cs || ipv6EmbeddedIpv4 cs

/-- The WHATWG IPv6 parser's accept/reject behaviour: at most one `::`
compression (only at the ends or strictly inside), hex pieces of at most
four digits, an optional embedded IPv4 in final position counting as two
pieces, exactly 8 pieces without compression and at most 7 with it. -/
def ipv6Valid (cs : List Char) : Bool :=
  let segs := splitOnChar ':' cs
  let nonEmpty := segs.filter (fun s => decide (s ≠ []))
  let empties := segs.length - nonEmpty.length
  let shapeOk :=
    if empties = 0 then true
    else if empties = 1 then
      decide (segs.head? ≠ some []) && decide (segs.getLast? ≠ some [])
    else if empties = 2 then
      (match segs with
       | [] :: [] :: rest => rest.all (fun s => decide (s ≠ []))
       | _ => false) ||
      (match segs.reverse with
       | [] :: [] :: rest => rest.all (fun s => decide (s ≠ []))
       | _ => false)
    else
      decide (segs = [[], [], []])
  let piecesOk :=
    match nonEmpty.getLast? with
    | none => empties = 3
    | some l =>
      nonEmpty.dropLast.all ipv6PieceValid && ipv6LastPieceValid l
  let count := nonEmpty.length +
    (match nonEmpty.getLast? with
     | some l => if ipv6EmbeddedIpv4 l then 1 else 0
     | none => 0)
  let countOk := if empties = 0 then decide (count = 8) else decide (count ≤ 7)
  shapeOk && piecesOk && countOk

/-- The WHATWG port state: only ASCII digits, value at most 65535 (an
empty port after `:` is allowed and means no port). -/
def portValid (p : List Char) : Bool :=
  p.all Char.isDigit && decide (digitsVal 10 p ≤ 65535)

/-- Host validity for a special scheme: nonempty, percent-decoded, no
forbidden domain code point, and IPv4-parsed when it ends in a number.
IDNA is modelled as the identity (ASCII hosts are unaffected; IDNA
failures on exotic non-ASCII or punycode labels are not modelled). -/
def hostValid (host : List Char) : Bool :=
  if host = [] then false
  else
    let decoded := percentDecode host
    if decoded.any isForbiddenDomainChar then false
    else if endsInNumber decoded then ipv4Valid decoded
    else true

/-- Authority validity for a special scheme: userinfo (before the last
`@`) never fails; a bracketed host must be a valid IPv6 address;
otherwise the part before the first `:` is the host and the rest the
port; an empty host is a failure. -/
def hostPortValid (auth : List Char) : Bool :=
  let hostPort := afterLastAt auth
  match hostPort with
  | [] => false
  | '[' :: inner =>
    let ip := inner.takeWhile (fun c => c ≠ ']')
    let rest := inner.drop ip.length
    (match rest with
     | [] => false
     | [']'] => true
     | ']' :: ':' :: p => portValid p
     | _ => false) && ipv6Valid ip
  | _ =>
    let host := hostPort.takeWhile (fun c => c ≠ ':')
    let rest := hostPort.drop host.length
    (match rest with
     | [] => true
     | _ :: p => portValid p) && hostValid host

/-- Models `new URL(s, 'https://localhost').protocol` (`none` when the
constructor throws), following the WHATWG basic parser with this base:
a `https` input (same scheme as the base) parses relative unless it
continues with two slash-like characters, in which case its authority
must be valid; a `http` input always reaches the special authority
states, so its authority must be valid (an empty host, as in
`"http://"`, throws); a scheme-less input is relative — a path never
fails, while two leading slash-like characters route into the base's
authority states.  For any other scheme the result is that scheme: such
an input either parses with that protocol or throws on a malformed
authority, and the caller rejects the scheme either way, so that throw
is not modelled.  Path, query and fragment parsing never fail and are
not represented. -/
def parseUrlProtocol (s : String) : Option String :=
  let input := urlPreprocess s.data
  match schemeSplit input with
  | some (sch, rest) =>
    if sch = "https" then
      if twoSlashStart rest then
        if hostPortValid (authorityOf rest) then some "https" else none
      else some "https"
    else if sch = "http" then
      if hostPortValid (authorityOf rest) then some "http" else none
    else some sch
  | none =>
    if twoSlashStart input then
      if hostPortValid (authorityOf input) then some "https" else none
    else some "https"

/-- Embeds `validateFrameUrl` (`src/types.ts`): trim; reject the empty
string; reject protocol-relative URLs (leading `//`); then parse with
`new URL(trimmed, 'https://localhost')` — a parse failure is caught and
rejected — and accept exactly when the parsed protocol is in the
whitelist `ALLOWED_PROTOCOLS = {http:, https:}`. -/
def validateFrameUrl (url : String) : Bool :=
  let trimmed := jsTrim url
  if trimmed = "" then false
  else if jsStartsWith trimmed "//" then false
  else
    match parseUrlProtocol trimmed with
    | some sch => sch = "http" || sch = "https"
    | none => false

/-- Embeds `sanitizeFrameUrls` (`src/types.ts`): keep only the frames
passing `validateFrameUrl` (the dev-mode `console.warn` has no effect on
the result). -/
def sanitizeFrameUrls (frames : List String) : List String :=
  frames.filter validateFrameUrl

/-- The value of a run of decimal digits, as `parseInt(run, 10)` computes
it (exact, JS float precision limits are not modelled). -/
def digitRunVal (ds : List Char) : Nat :=
  ds.foldl (fun n c => 10 * n + (c.toNat - 48)) 0

/-- The first maximal run of decimal digits in a character list, if any:
the model of the regular expression match `filename.match(/\d+/)`. -/
def firstDigitRun : List Char → Option (List Char)
  | [] => none
  | c :: rest =>
    if c.isDigit then some (c :: rest.takeWhile Char.isDigit)
    else firstDigitRun rest

/-- Embeds `extractNumber` (`src/types.ts`): the number parsed from the
first digit run of the filename, `-1` when the filename contains no
digit. -/
def extractNumber (filename : String) : Int :=
  match firstDigitRun filename.data with
  | some ds => (digitRunVal ds : Int)
  | none => -1

/-- The comparator key order used by the frame sort in
`processManualFrames`: `(a, b) => extractNumber(a) - extractNumber(b)`. -/
def frameLE (a b : String) : Prop := extractNumber a ≤ extractNumber b

instance : DecidableRel frameLE := fun a b =>
  inferInstanceAs (Decidable (extractNumber a ≤ extractNumber b))

instance : IsTotal String frameLE := ⟨fun a b => le_total _ _⟩

instance : IsTrans String frameLE := ⟨fun _ _ _ => le_trans⟩

/-- The frame sort of `processManualFrames`: JavaScript `Array.prototype.sort`
is a stable sort, modelled by the (stable) insertion sort with the
comparator's key order. -/
def sortFrames (frames : List String) : List String :=
  List.insertionSort frameLE frames

/-- `ResolvedSequence` (`src/types.ts`). -/
structure ResolvedSequence where
  frames : List String
  frameCount : Nat
deriving DecidableEq

/-- The error classes of the resolver's throw sites (§7 taxonomy).  The
source throws `Error` values whose message strings are elided here. -/
inductive ResolveError where
  | validation
  | network
  | timeout
deriving DecidableEq

deriving instance DecidableEq for Except

/-- `DEFAULT_MAX_FRAMES` (`src/types.ts`). -/
def DEFAULT_MAX_FRAMES : ℚ := 2000

/-- `ABSOLUTE_MAX_FRAMES` (`src/types.ts`). -/
def ABSOLUTE_MAX_FRAMES : ℚ := 8000

/-- Embeds `getMaxFrames` (`src/types.ts`).  The argument is the value of
`Number(process.env.REACT_SCROLL_MEDIA_MAX_FRAMES)`: `none` stands for
`NaN` (variable absent or not numeric), `some q` for a numeric result.
`Number.isInteger` is `q.den = 1`. -/
def getMaxFrames (env : Option ℚ) : ℚ :=
  match env with
  | some q => if q.den = 1 ∧ 0 < q then min q ABSOLUTE_MAX_FRAMES else DEFAULT_MAX_FRAMES
  | none => DEFAULT_MAX_FRAMES

/-- The frame-count cap exactly as §6 of the spec words it: "one external
override for the frame-count cap, interpreted as a positive integer and
clamped to the hard ceiling (8000); invalid/absent values fall back to
the default (2000)". -/
def specFrameCap (env : Option ℚ) : ℚ :=
  match env with
  | some q => if q.den = 1 ∧ 0 < q then min q 8000 else 2000
  | none => 2000

/-- Embeds `processManualFrames` (`src/types.ts`): sanitize, enforce the
cap on the sanitized list (throwing), then stable-sort by the extracted
numeric key. -/
def processManualFrames (env : Option ℚ) (frames : List String) :
    Except ResolveError ResolvedSequence :=
  let safe := sanitizeFrameUrls frames
  if getMaxFrames env < (safe.length : ℚ) then
    .error .validation
  else
    let sorted := sortFrames safe
    .ok ⟨sorted, sorted.length⟩

/-- `indexStr.padStart(pad, '0')`. -/
def padStartZeros (s : String) (n : Int) : String :=
  if (s.length : Int) < n then
    String.mk (List.replicate (n.toNat - s.length) '0' ++ s.data)
  else s

/-- JavaScript `String.prototype.replace` with a string pattern replaces
only the first occurrence. -/
def replaceFirst (s sep repl : String) : String :=
  match s.splitOn sep with
  | [] => s
  | [_] => s
  | x :: y :: rest => x ++ repl ++ String.intercalate sep (y :: rest)

/-- The inclusive integer range `[a, b]` iterated by the source's
`for (let i = start; i <= end; i++)` loops. -/
def intRangeIncl (a b : Int) : List Int :=
  (List.range (b + 1 - a).toNat).map (fun k => a + Int.ofNat k)

/-- Embeds `processPatternMode` (`src/types.ts`): validate the template
URL, enforce the cap on `end - start + 1` before generating, then emit
one frame per index, zero-padded when `pad` is given and nonzero (JS
`if (pad)` treats `0` as absent). -/
def processPatternMode (env : Option ℚ) (pattern : String)
    (start end_ : Int) (pad : Option Int) :
    Except ResolveError ResolvedSequence :=
  if validateFrameUrl pattern = false then .error .validation
  else
    let frameCount := end_ - start + 1
    if getMaxFrames env < (frameCount : ℚ) then .error .validation
    else
      let frames := (intRangeIncl start end_).map (fun i =>
        let indexStr := toString i
        let indexStr := match pad with
          | some p => if p ≠ 0 then padStartZeros indexStr p else indexStr
          | none => indexStr
        replaceFirst pattern "\x7bindex\x7d" indexStr)
      .ok ⟨frames, frames.length⟩

/-- The JSON values `JSON.parse` can produce (numbers exact). -/
inductive Json where
  | jnull
  | jbool (b : Bool)
  | jnum (q : ℚ)
  | jstr (s : String)
  | jarr (xs : List Json)
  | jobj (fields : List (String × Json))

/-- JavaScript truthiness of a parsed JSON value (`NaN` cannot come out
of `JSON.parse`). -/
def jsTruthy : Json → Bool
  | .jnull => false
  | .jbool b => b
  | .jnum q => decide (q ≠ 0)
  | .jstr s => decide (s ≠ "")
  | .jarr _ => true
  | .jobj _ => true

/-- `typeof v === 'object'` for a parsed JSON value (`null` is excluded
beforehand by the `!data` truthiness test in the source). -/
def isObjectTypeof : Json → Bool
  | .jarr _ => true
  | .jobj _ => true
  | _ => false

/-- Property access `data.key` on a parsed JSON value: `none` is
`undefined` (absent field or not an object). -/
def jGet (v : Json) (key : String) : Option Json :=
  match v with
  | .jobj fields => fields.lookup key
  | _ => none

/-- `Number.isInteger(v) && v >= 1` for a JSON value, the check applied to
`end`, `start` and `pad` by the manifest pattern branch. -/
def jsonPosInt : Json → Option Int
  | .jnum q => if q.den = 1 ∧ 1 ≤ q then some q.num else none
  | _ => none

/-- The shape validation and dispatch that `processManifestMode`
(`src/types.ts`) applies to the parsed manifest body:
`{frames: string[]}` goes to the manual path, a truthy `pattern` with a
numeric `end` goes to the pattern path after positivity checks, anything
else is a validation error. -/
def manifestShape (env : Option ℚ) (data : Json) :
    Except ResolveError ResolvedSequence :=
  if !(jsTruthy data) || !(isObjectTypeof data) then .error .validation
  else
    match jGet data "frames" with
    | some (Json.jarr xs) =>
      if xs.any (fun f => match f with | .jstr _ => false | _ => true) then
        .error .validation
      else
        processManualFrames env (xs.filterMap (fun f =>
          match f with | .jstr s => some s | _ => none))
    | _ =>
      match jGet data "pattern", jGet data "end" with
      | some pv, some (Json.jnum endq) =>
        if jsTruthy pv = false then .error .validation
        else
          match pv with
          | .jstr ps =>
            if ¬(endq.den = 1 ∧ 1 ≤ endq) then .error .validation
            else
              let startJ := match jGet data "start" with
                | none => none
                | some .jnull => none
                | some v => some v
              match startJ with
              | none =>
                match jGet data "pad" with
                | none => processPatternMode env ps 1 endq.num none
                | some padv =>
                  match jsonPosInt padv with
                  | some p => processPatternMode env ps 1 endq.num (some p)
                  | none => .error .validation
              | some sv =>
                match jsonPosInt sv with
                | none => .error .validation
                | some st =>
                  match jGet data "pad" with
                  | none => processPatternMode env ps st endq.num none
                  | some padv =>
                    match jsonPosInt padv with
                    | some p => processPatternMode env ps st endq.num (some p)
                    | none => .error .validation
          | _ => .error .validation
      | _, _ => .error .validation

/-- The outcome of `fetch(url, ...)` followed by `res.text()`, as the
network oracle presents it: a timeout abort (`AbortError`), another
rejection, or a response carrying the success flag, the `content-type`
header, the body text length in bytes and the `JSON.parse` result of the
body (`none` when parsing throws). -/
inductive FetchOutcome where
  | timeout
  | netFail
  | resp (ok : Bool) (contentType : Option String) (bodyLen : Nat)
      (bodyJson : Option Json)

/-- `MANIFEST_MAX_SIZE_BYTES` (`src/types.ts`). -/
def MANIFEST_MAX_SIZE_BYTES : Nat := 1048576

/-- `MANIFEST_CACHE_MAX_ENTRIES` (`src/types.ts`). -/
def MANIFEST_CACHE_MAX_ENTRIES : Nat := 50

/-- Substring containment, modelling
`contentType?.includes('application/json')`. -/
def containsSubstr (s pat : String) : Bool :=
  decide (2 ≤ (s.splitOn pat).length)

/-- The part of the async body of `processManifestMode` (`src/types.ts`)
that runs after the `fetch` call resolves: status check, content-type
check, size cap, `JSON.parse`, shape validation and dispatch.  The
`AbortError` rename in the `catch` block is the `timeout` case. -/
def manifestBody (env : Option ℚ) (out : FetchOutcome) :
    Except ResolveError ResolvedSequence :=
  match out with
  | .timeout => .error .timeout
  | .netFail => .error .network
  | .resp ok contentType bodyLen bodyJson =>
    if ok = false then .error .network
    else if !(match contentType with
              | some ct => containsSubstr ct "application/json"
              | none => false) then .error .network
    else if MANIFEST_MAX_SIZE_BYTES < bodyLen then .error .validation
    else
      match bodyJson with
      | none => .error .validation
      | some data => manifestShape env data

/-- `manifestCache.delete(url)`. -/
def eraseKey (cache : List (String × Except ResolveError ResolvedSequence))
    (url : String) : List (String × Except ResolveError ResolvedSequence) :=
  cache.filter (fun e => decide (e.1 ≠ url))

/-- The cache store at the end of `processManifestMode` (`src/types.ts`):
when the cache already holds `MANIFEST_CACHE_MAX_ENTRIES` entries the
oldest entry (first key in `Map` insertion order) is deleted — but only
when that key is truthy (`if (oldestKey)`), so an empty-string key is
never evicted — and then the promise is stored under `url`. -/
def insertManifestEntry
    (cache : List (String × Except ResolveError ResolvedSequence))
    (url : String) (v : Except ResolveError ResolvedSequence) :
    List (String × Except ResolveError ResolvedSequence) :=
  let c :=
    if MANIFEST_CACHE_MAX_ENTRIES ≤ cache.length then
      match cache with
      | [] => cache
      | (k, _) :: rest => if k = "" then cache else rest
    else cache
  c ++ [(url, v)]

/-- The result of one `processManifestMode(url)` call: the value the
returned promise settles to, the manifest cache afterwards, and the list
of URLs for which a network request was issued. -/
structure ManifestCall where
  result : Except ResolveError ResolvedSequence
  cache : List (String × Except ResolveError ResolvedSequence)
  fetched : List String

/-- Embeds `processManifestMode` (`src/types.ts`) together with the JS
execution order of its async body.  A cache hit returns the stored
promise with no request.  On a miss the body runs synchronously up to its
first `await`: an insecure URL therefore throws, and the `catch` block's
`manifestCache.delete(url)` runs, *before* the outer code stores the
(already rejected) promise in the cache — so the failed entry stays
stored.  A secure URL issues the fetch and suspends; the outer code then
stores the pending promise, and when the body later fails its `catch`
removes the stored entry. -/
def processManifestMode (env : Option ℚ) (net : String → FetchOutcome)
    (cache : List (String × Except ResolveError ResolvedSequence))
    (url : String) : ManifestCall :=
  match cache.lookup url with
  | some r => ⟨r, cache, []⟩
  | none =>
    if jsStartsWith url "https://" = false then
      let res : Except ResolveError ResolvedSequence := .error .validation
      ⟨res, insertManifestEntry (eraseKey cache url) url res, []⟩
    else
      let stored := insertManifestEntry cache url
      match manifestBody env (net url) with
      | .ok seq => ⟨.ok seq, stored (.ok seq), [url]⟩
      | .error e => ⟨.error e, eraseKey (stored (.error e)) url, [url]⟩

/-- `'eager' | 'lazy'` memory strategies of the `ImageController`. -/
inductive Strategy where
  | eager
  | lazy
deriving DecidableEq

/-- The observable state of an `ImageController`
(`src/controllers/imageController.ts`).  `imageCache` and
`loadingPromises` are the key lists of the two `Map`s in insertion order
(the mapped image handles and promises carry no further information the
model needs).  `pendingPaints` records the continuations that `drawFrame`
attaches with `promise.then(...)` to a not-yet-settled load, as
`(src, index)` pairs in attachment order.  `paintCount` counts executed
`ctx.drawImage` calls and `lastPainted` is the index that was last
actually painted. -/
structure ControllerState where
  frames : List String
  strategy : Strategy
  bufferSize : Nat
  imageCache : List String
  loadingPromises : List String
  currentFrameIndex : Int
  isDestroyed : Bool
  pendingPaints : List (String × Int)
  paintCount : Nat
  lastPainted : Option Int
deriving DecidableEq

/-- `this.frames[i]` for an integer index known to be in range. -/
def frameAt (frames : List String) (i : Int) : String :=
  frames.getD i.toNat ""

/-- The index window `[max(0, idx-radius), min(n-1, idx+radius)]` that
`ensureFrameWindow` iterates. -/
def windowIndices (frames : List String) (bufferSize : Nat)
    (currentIndex : Int) : List Int :=
  intRangeIncl (max 0 (currentIndex - bufferSize))
    (min ((frames.length : Int) - 1) (currentIndex + bufferSize))

/-- The synchronous effect of one `preloadFrame(i)` call on the
`loadingPromises` key list (`src/controllers/imageController.ts`): out of
range does nothing; a cached src does nothing; otherwise the load promise
is registered under `src` unless one is already registered (the await of
the promise has no state effect). -/
def preloadFrameStep (frames : List String) (cache : List String)
    (loading : List String) (i : Int) : List String :=
  if i < 0 ∨ (frames.length : Int) ≤ i then loading
  else
    let src := frameAt frames i
    if src ∈ cache then loading
    else if src ∈ loading then loading
    else loading ++ [src]

/-- Embeds `ensureFrameWindow` (`src/controllers/imageController.ts`).
The cleanup loop iterates the keys of `imageCache` only: for a cached src
outside the needed window it deletes both the cache entry and the
load-tracking entry.  A loading-but-not-yet-cached src is not visited by
the loop, so its `loadingPromises` entry survives.  Afterwards every
index in the window is preloaded. -/
def ensureFrameWindow (s : ControllerState) (currentIndex : Int) :
    ControllerState :=
  if s.isDestroyed = true then s
  else
    let idxs := windowIndices s.frames s.bufferSize currentIndex
    let needed := idxs.map (frameAt s.frames)
    let newCache := s.imageCache.filter (fun src => decide (src ∈ needed))
    let newLoading := s.loadingPromises.filter (fun src =>
      !(decide (src ∈ s.imageCache) && !(decide (src ∈ needed))))
    { s with
      imageCache := newCache
      loadingPromises := idxs.foldl (preloadFrameStep s.frames newCache) newLoading }

/-- Embeds `preloadAll` (`src/controllers/imageController.ts`): one
`preloadFrame(i)` per frame index. -/
def preloadAll (s : ControllerState) : ControllerState :=
  { s with
    loadingPromises := (intRangeIncl 0 ((s.frames.length : Int) - 1)).foldl
      (preloadFrameStep s.frames s.imageCache) s.loadingPromises }

/-- Embeds the `ImageController` constructor: strategy defaults to
`eager`, `bufferSize` defaults to 10 (`config.bufferSize || 10`, so an
explicit 0 also yields 10), then either all frames are preloaded or the
window around index 0 is ensured.  The 2D-context acquisition (whose
failure throws) is assumed to succeed. -/
def initController (frames : List String) (strategy : Strategy)
    (bufferSize : Option Nat) : ControllerState :=
  let s : ControllerState := {
    frames := frames
    strategy := strategy
    bufferSize := match bufferSize with
      | some n => if n = 0 then 10 else n
      | none => 10
    imageCache := []
    loadingPromises := []
    currentFrameIndex := -1
    isDestroyed := false
    pendingPaints := []
    paintCount := 0
    lastPainted := none }
  match strategy with
  | .eager => preloadAll s
  | .lazy => ensureFrameWindow s 0

/-- Embeds `drawFrame` (`src/controllers/imageController.ts`): guard;
paint the cached image (clear, aspect-preserving scale, one
`drawImage`) when the src is cached; otherwise attach a repaint
continuation to the pending load, if one is tracked. -/
def drawFrame (s : ControllerState) (index : Int) : ControllerState :=
  if s.isDestroyed = true ∨ index < 0 ∨ (s.frames.length : Int) ≤ index then s
  else
    let src := frameAt s.frames index
    if src ∈ s.imageCache then
      { s with paintCount := s.paintCount + 1, lastPainted := some index }
    else if src ∈ s.loadingPromises then
      { s with pendingPaints := s.pendingPaints ++ [(src, index)] }
    else s

/-- The frame index `Math.floor(progress * (frames.length - 1))` computed
by `update`. -/
def frameIndexOf (frames : List String) (p : ℚ) : Int :=
  ⌊p * ((frames.length : ℚ) - 1)⌋

/-- The part of `update` after the frame index is computed: lazy
strategies refresh the window regardless of whether the index changed;
an unchanged index returns without painting; a changed index is recorded
and drawn. -/
def updateIdx (s : ControllerState) (frameIndex : Int) : ControllerState :=
  let s1 := if s.strategy = Strategy.lazy then ensureFrameWindow s frameIndex else s
  if frameIndex = s1.currentFrameIndex then s1
  else drawFrame { s1 with currentFrameIndex := frameIndex } frameIndex

/-- Embeds `update(progress)` (`src/controllers/imageController.ts`). -/
def update (s : ControllerState) (p : ℚ) : ControllerState :=
  if s.isDestroyed = true ∨ s.frames = [] then s
  else updateIdx s (frameIndexOf s.frames p)

/-- Runs the `promise.then` continuations attached by `drawFrame` for a
just-resolved load of `src`: each repaints its index only if that index
is still current. -/
def runPendingPaints (s : ControllerState) (src : String) : ControllerState :=
  let conts := s.pendingPaints.filter (fun pp => decide (pp.1 = src))
  let s1 := { s with
    pendingPaints := s.pendingPaints.filter (fun pp => decide (pp.1 ≠ src)) }
  conts.foldl (fun st pp =>
    if st.currentFrameIndex = pp.2 then drawFrame st pp.2 else st) s1

/-- Embeds the completion of an image load issued by `loadImage`
(`src/controllers/imageController.ts`).  On success (`onload` and the
`decode()` chain — the cache entry is stored whether or not `decode`
rejects) the image is put into `imageCache` unconditionally unless the
controller is destroyed; nothing consults `loadingPromises`, whose entry
survives a successful load.  Then the promise's `then` continuations run.
On failure (`onerror`) the promise rejects, every catch ignores it, and
no state changes. -/
def settleLoad (s : ControllerState) (src : String) (ok : Bool) :
    ControllerState :=
  if s.isDestroyed = true then s
  else if ok then
    let s1 := { s with
      imageCache := if src ∈ s.imageCache then s.imageCache else s.imageCache ++ [src] }
    runPendingPaints s1 src
  else s

/-- Embeds `destroy()` (`src/controllers/imageController.ts`). -/
def destroyController (s : ControllerState) : ControllerState :=
  { s with isDestroyed := true, imageCache := [], loadingPromises := [] }

/-- JavaScript `Math.round` for the nonnegative values produced by the
progress pipeline: round half away from zero is `⌊q + 1/2⌋` there. -/
def jsRound (q : ℚ) : Int := ⌊q + 1/2⌋

/-- `Math.round(clamped * 1000000) / 1000000`. -/
def round6 (q : ℚ) : ℚ := (jsRound (q * 1000000) : ℚ) / 1000000

/-- `Math.min(Math.max(rawProgress, 0), 1)`. -/
def clampQ (q : ℚ) : ℚ := min (max q 0) 1

/-- Embeds `calculateProgress` (`src/core/scrollTimeline.ts`) after the
cache update has run (so `cachedRect` is present; its height is the first
argument).  Note `this.cachedRect?.height || currentRect.height`: a
*zero* cached height is falsy in JS, so the live height is used in its
place.  `relativeTop = currentRect.top - this.cachedOffsetTop`. -/
def calculateProgress (cachedHeight : Option ℚ)
    (cachedViewportHeight cachedOffsetTop currentTop currentHeight : ℚ) : ℚ :=
  let h := match cachedHeight with
    | some ch => if ch = 0 then currentHeight else ch
    | none => currentHeight
  let scrollDist := h - cachedViewportHeight
  if scrollDist ≤ 0 then 1
  else
    let relativeTop := currentTop - cachedOffsetTop
    let rawProgress := -relativeTop / scrollDist
    round6 (clampQ rawProgress)

/-- The progress rule exactly as §4.2 of the spec words it, in terms of
the cached tracked height, the cached viewport height, and the live
relative top: scroll distance `trackedHeight - viewportHeight`; when it
is `≤ 0` the progress is exactly 1; otherwise
`clamp(-relativeTop / scrollDistance, 0, 1)` rounded to 6 decimals. -/
def specProgress (trackedHeight viewportHeight relativeTop : ℚ) : ℚ :=
  let scrollDist := trackedHeight - viewportHeight
  if scrollDist ≤ 0 then 1
  else round6 (clampQ (-relativeTop / scrollDist))

/-! ## Helper lemmas -/

lemma getMaxFrames_pos (env : Option ℚ) : 0 < getMaxFrames env := by
  cases env with
  | none => norm_num [getMaxFrames, DEFAULT_MAX_FRAMES]
  | some q =>
    by_cases h : q.den = 1 ∧ 0 < q
    · simp only [getMaxFrames, if_pos h]
      exact lt_min h.2 (by norm_num [ABSOLUTE_MAX_FRAMES])
    · simp only [getMaxFrames, if_neg h]
      norm_num [DEFAULT_MAX_FRAMES]

/-! ## Claim C1 -/

/-- Claim C3: `resolve` fails with a `ValidationError` exactly when the
validated (sanitized) frame list exceeds the frame-count cap; the cap is
the external override when it parses as a positive integer (clamped to
the hard ceiling 8000) and the default 2000 otherwise, and never exceeds
the ceiling. -/
theorem frame_cap_enforced :
    (∀ env, getMaxFrames env = specFrameCap env) ∧
    (∀ env, getMaxFrames env ≤ 8000) ∧
    (∀ env frames,
      processManualFrames env frames = .error .validation ↔
        getMaxFrames env < ((sanitizeFrameUrls frames).length : ℚ)) := by
  refine ⟨?_, ?_, ?_⟩
  · intro env
    cases env <;> rfl
  · intro env
    cases env with
    | none => norm_num [getMaxFrames, DEFAULT_MAX_FRAMES]
    | some q =>
      by_cases h : q.den = 1 ∧ 0 < q
      · simp only [getMaxFrames, if_pos h]
        exact le_trans (min_le_right _ _) (by norm_num [ABSOLUTE_MAX_FRAMES])
      · simp only [getMaxFrames, if_neg h]
        norm_num [DEFAULT_MAX_FRAMES]
  · intro env frames
    unfold processManualFrames
    by_cases hc : getMaxFrames env < ((sanitizeFrameUrls frames).length : ℚ)
    · simp [hc]
    · simp [hc]

/-! ## Claim C4 -/

/-- Counterexample for C4: a non-empty manual frame list in which every
entry fails validation does *not* make `resolve` fail — the source's
`processManualFrames` has no emptiness check and returns an empty
sequence. -/
theorem manual_all_invalid_returns_empty :
    processManualFrames none ["//evil.com/x.jpg"] = .ok ⟨[], 0⟩ ∧
    (processManualFrames none ["//evil.com/x.jpg"]).isOk = true := by
  have hs : sanitizeFrameUrls ["//evil.com/x.jpg"] = [] := by decide
  have hres : processManualFrames none ["//evil.com/x.jpg"] = .ok ⟨[], 0⟩ := by
    unfold processManualFrames
    rw [hs]
    rw [if_neg (by norm_num [getMaxFrames, DEFAULT_MAX_FRAMES])]
    rfl
  exact ⟨hres, by rw [hres]; rfl⟩

/-- Claim C4 (amended): frames failing validation are dropped without
failing the resolution; when *all* frames of a non-empty list are
dropped, `resolve` succeeds with the empty sequence
`{frames: [], frameCount: 0}` instead of failing. -/
theorem manual_invalid_frames_dropped (env : Option ℚ) (frames : List String)
    (hcap : ((sanitizeFrameUrls frames).length : ℚ) ≤ getMaxFrames env) :
    processManualFrames env frames =
      .ok ⟨sortFrames (sanitizeFrameUrls frames),
        (sortFrames (sanitizeFrameUrls frames)).length⟩ ∧
    ((∀ u ∈ frames, validateFrameUrl u = false) →
      processManualFrames env frames = .ok ⟨[], 0⟩) := by
  constructor
  · unfold processManualFrames
    rw [if_neg (not_lt.2 hcap)]
  · intro hall
    have hs : sanitizeFrameUrls frames = [] := by
      unfold sanitizeFrameUrls
      rw [List.filter_eq_nil]
      intro u hu
      simp [hall u hu]
    unfold processManualFrames
    rw [hs]
    rw [if_neg (not_lt.2 (by exact_mod_cast le_of_lt (getMaxFrames_pos env)))]
    rfl

/-- Witness for C4's amended theorem at a concrete all-invalid list. -/
theorem manual_invalid_frames_dropped_witness :
    processManualFrames none ["javascript:alert(1)", "//e.example/x"] =
      .ok ⟨sortFrames (sanitizeFrameUrls ["javascript:alert(1)", "//e.example/x"]),
        (sortFrames (sanitizeFrameUrls ["javascript:alert(1)", "//e.example/x"])).length⟩ ∧
    ((∀ u ∈ ["javascript:alert(1)", "//e.example/x"], validateFrameUrl u = false) →
      processManualFrames none ["javascript:alert(1)", "//e.example/x"] = .ok ⟨[], 0⟩) :=
  manual_invalid_frames_dropped none ["javascript:alert(1)", "//e.example/x"]
    (by decide)

/-! ## Claim C2 -/

/-- Claim C2: a manifest URL that does not start with `https://` fails
before any network request — no fetch is issued for it (whatever the
cache holds), and on a cache miss the resolution result is the
validation error thrown by the HTTPS check. -/
theorem insecure_manifest_no_fetch (env : Option ℚ)
    (net : String → FetchOutcome)
    (cache : List (String × Except ResolveError ResolvedSequence))
    (url : String) (h : jsStartsWith url "https://" = false) :
    (processManifestMode env net cache url).fetched = [] ∧
    (cache.lookup url = none →
      (processManifestMode env net cache url).result = .error .validation) := by
  unfold processManifestMode
  cases hl : cache.lookup url with
  | some r =>
    exact ⟨rfl, fun hn => Option.noConfusion hn⟩
  | none =>
    rw [if_pos h]
    exact ⟨rfl, fun _ => rfl⟩

/-- Witness for C2 at the spec's concrete insecure URL. -/
theorem insecure_manifest_no_fetch_witness :
    (processManifestMode none (fun _ => FetchOutcome.netFail) []
        "http://insecure.example/m.json").fetched = [] ∧
    (processManifestMode none (fun _ => FetchOutcome.netFail) []
        "http://insecure.example/m.json").result = .error .validation :=
  ⟨(insecure_manifest_no_fetch none (fun _ => FetchOutcome.netFail) []
      "http://insecure.example/m.json" (by decide)).1,
    (insecure_manifest_no_fetch none (fun _ => FetchOutcome.netFail) []
      "http://insecure.example/m.json" (by decide)).2 rfl⟩

/-! ## Claim C5 -/

/-- Claim C5 (code bug): the async body of `processManifestMode` rejects
*synchronously* for an insecure URL, so its `catch` block's
`manifestCache.delete(url)` runs before the outer code stores the
promise; the rejected entry therefore stays in the cache, and a second
resolve of the same URL replays the cached failure (no retry, and still
no fetch) instead of retrying — contradicting both the spec and the
source comment "Remove from cache on error so retry is possible". -/
theorem manifest_failed_entry_stays_cached :
    (processManifestMode none (fun _ => FetchOutcome.netFail) []
        "http://insecure.example/m.json").cache =
      [("http://insecure.example/m.json", Except.error ResolveError.validation)] ∧
    (processManifestMode none (fun _ => FetchOutcome.netFail)
        [("http://insecure.example/m.json", Except.error ResolveError.validation)]
        "http://insecure.example/m.json").result =
      Except.error ResolveError.validation ∧
    (processManifestMode none (fun _ => FetchOutcome.netFail)
        [("http://insecure.example/m.json", Except.error ResolveError.validation)]
        "http://insecure.example/m.json").cache =
      [("http://insecure.example/m.json", Except.error ResolveError.validation)] := by
  refine ⟨by decide, by decide, by decide⟩

/-! ## Claim C10 -/

lemma neg_one_le_extractNumber (s : String) : -1 ≤ extractNumber s := by
  rcases h : firstDigitRun s.data with _ | ds <;> simp [extractNumber, h]
  have := Int.natCast_nonneg (digitRunVal ds)
  omega

lemma firstDigitRun_eq_none (cs : List Char)
    (h : cs.any Char.isDigit = false) : firstDigitRun cs = none := by
  induction cs with
  | nil => rfl
  | cons c rest ih =>
    rw [List.any_cons, Bool.or_eq_false_iff] at h
    rw [firstDigitRun, h.1]
    simp [ih h.2]

lemma orderedInsert_digitless (a : String) (ha : extractNumber a = -1)
    (l : List String) : List.orderedInsert frameLE a l = a :: l := by
  cases l with
  | nil => rfl
  | cons b t =>
    rw [List.orderedInsert, if_pos]
    show extractNumber a ≤ extractNumber b
    rw [ha]
    exact neg_one_le_extractNumber b

lemma filter_digitless_orderedInsert (a : String)
    (ha : ¬ extractNumber a = -1) (l : List String) :
    (List.orderedInsert frameLE a l).filter
        (fun u => decide (extractNumber u = -1)) =
      l.filter (fun u => decide (extractNumber u = -1)) := by
  induction l with
  | nil => simp [ha]
  | cons b t ih =>
    rw [List.orderedInsert]
    by_cases hab : frameLE a b
    · rw [if_pos hab]
      simp [ha]
    · rw [if_neg hab]
      simp only [List.filter_cons]
      rw [ih]

lemma sortFrames_filter_digitless (frames : List String) :
    (sortFrames frames).filter (fun u => decide (extractNumber u = -1)) =
      frames.filter (fun u => decide (extractNumber u = -1)) := by
  induction frames with
  | nil => rfl
  | cons a l ih =>
    show (List.orderedInsert frameLE a (sortFrames l)).filter _ = _
    by_cases ha : extractNumber a = -1
    · rw [orderedInsert_digitless a ha]
      simp only [List.filter_cons]
      rw [ih]
    · rw [filter_digitless_orderedInsert a ha]
      simp only [List.filter_cons]
      rw [ih]
      simp [ha]

/-- Claim C10: a frame URL with no decimal digit gets the sentinel sort
key `-1`; since every extracted key is `-1` or a nonnegative parsed
number, and the sort orders keys nondecreasingly, every digit-less frame
ends up before every numbered frame, and the stable sort keeps digit-less
frames in their original relative order; `processManualFrames` returns
exactly this sorted sanitized list. -/
theorem digitless_frames_sort_first :
    (∀ s : String, s.data.any Char.isDigit = false → extractNumber s = -1) ∧
    (∀ s : String, extractNumber s = -1 ∨ 0 ≤ extractNumber s) ∧
    (∀ frames : List String, (sortFrames frames).Sorted frameLE) ∧
    (∀ frames : List String, ∀ i j : Fin (sortFrames frames).length, i < j →
      extractNumber ((sortFrames frames).get j) = -1 →
      extractNumber ((sortFrames frames).get i) = -1) ∧
    (∀ frames : List String,
      (sortFrames frames).filter (fun u => decide (extractNumber u = -1)) =
        frames.filter (fun u => decide (extractNumber u = -1))) ∧
    (∀ env frames res, processManualFrames env frames = .ok res →
      res.frames = sortFrames (sanitizeFrameUrls frames)) := by
  refine ⟨?_, ?_, ?_, ?_, sortFrames_filter_digitless, ?_⟩
  · intro s h
    unfold extractNumber
    rw [firstDigitRun_eq_none s.data h]
  · intro s
    rcases h : firstDigitRun s.data with _ | ds
    · exact Or.inl (by simp [extractNumber, h])
    · refine Or.inr ?_
      simp only [extractNumber, h]
      exact Int.natCast_nonneg (digitRunVal ds)
  · intro frames
    exact List.sorted_insertionSort frameLE frames
  · intro frames i j hij hj
    have hs := List.sorted_insertionSort frameLE frames
    have hrel : frameLE ((sortFrames frames).get i) ((sortFrames frames).get j) :=
      hs.rel_get_of_lt hij
    have h1 : extractNumber ((sortFrames frames).get i) ≤ -1 := by
      rw [← hj]; exact hrel
    exact le_antisymm h1 (neg_one_le_extractNumber _)
  · intro env frames res h
    by_cases hc : getMaxFrames env < ((sanitizeFrameUrls frames).length : ℚ)
    · simp [processManualFrames, hc] at h
    · simp [processManualFrames, hc] at h
      rw [← h]

/-- Witness for C10 at concrete inputs: a digit-less frame gets key `-1`
and sorts ahead of numbered frames while keeping its position among
digit-less ones. -/
theorem digitless_frames_sort_first_witness :
    extractNumber "cover.jpg" = -1 ∧
    (sortFrames ["b7.jpg", "zeta.jpg", "cover.jpg", "a2.jpg"]).filter
        (fun u => decide (extractNumber u = -1)) =
      (["b7.jpg", "zeta.jpg", "cover.jpg", "a2.jpg"] : List String).filter
        (fun u => decide (extractNumber u = -1)) :=
  ⟨digitless_frames_sort_first.1 "cover.jpg" (by decide),
    digitless_frames_sort_first.2.2.2.2.1 ["b7.jpg", "zeta.jpg", "cover.jpg", "a2.jpg"]⟩

/-! ## Claim C7 -/

/-- Counterexample for C7: with a *zero* cached tracked height the spec's
cached scroll distance is `0 - 10 ≤ 0`, so the claim demands progress
exactly 1; but `this.cachedRect?.height || currentRect.height` treats the
zero height as falsy and substitutes the live height (110), producing
progress 1/2 from live geometry. -/
theorem progress_zero_cached_height_counterexample :
    ((0 : ℚ) - 10 ≤ 0) ∧
    calculateProgress (some 0) 10 0 (-50) 110 = 1/2 ∧
    ((1 : ℚ)/2 ≠ 1) := by
  refine ⟨by norm_num, ?_, by norm_num⟩
  have h0 : calculateProgress (some 0) 10 0 (-50) 110 = round6 (clampQ (1/2)) := by
    norm_num [calculateProgress]
  rw [h0]
  have h2 : clampQ (1/2 : ℚ) = 1/2 := by
    unfold clampQ
    rw [max_eq_left (by norm_num : (0 : ℚ) ≤ 1/2),
      min_eq_left (by norm_num : (1/2 : ℚ) ≤ 1)]
  rw [h2]
  unfold round6 jsRound
  have h4 : ((1 : ℚ)/2 * 1000000 + 1/2) = ((500000 : ℤ) : ℚ) + 1/2 := by norm_num
  rw [h4, Int.floor_int_add]
  have h5 : ⌊(1 : ℚ)/2⌋ = 0 := by
    rw [Int.floor_eq_zero_iff, Set.mem_Ico]
    constructor <;> norm_num
  rw [h5]
  norm_num

/-- Claim C7 (amended): on every Timeline tick with a *nonzero* cached
tracked height, `calculateProgress` computes exactly the spec formula: 1
when the cached scroll distance `trackedHeight - viewportHeight` is `≤ 0`,
otherwise `clamp(-relativeTop / scrollDistance, 0, 1)` rounded to six
decimal places (`relativeTop = currentTop - cachedOffsetTop`).  A zero
cached height instead falls back to the live height through JS `||`
falsiness. -/
theorem progress_matches_spec_formula (ch vh off ct curH : ℚ) (hch : ch ≠ 0) :
    calculateProgress (some ch) vh off ct curH = specProgress ch vh (ct - off) := by
  unfold calculateProgress specProgress
  simp only [if_neg hch]

/-- Witness for C7's amended theorem at concrete geometry. -/
theorem progress_matches_spec_formula_witness :
    calculateProgress (some 300) 100 0 (-100) 0 =
      specProgress 300 100 (-100 - 0) :=
  progress_matches_spec_formula 300 100 0 (-100) 0 (by norm_num)

/-! ## Controller lemmas -/

lemma ensureFrameWindow_frames (s : ControllerState) (i : Int) :
    (ensureFrameWindow s i).frames = s.frames := by
  unfold ensureFrameWindow
  split <;> rfl

lemma ensureFrameWindow_paintCount (s : ControllerState) (i : Int) :
    (ensureFrameWindow s i).paintCount = s.paintCount := by
  unfold ensureFrameWindow
  split <;> rfl

lemma ensureFrameWindow_current (s : ControllerState) (i : Int) :
    (ensureFrameWindow s i).currentFrameIndex = s.currentFrameIndex := by
  unfold ensureFrameWindow
  split <;> rfl

lemma ensureFrameWindow_destroyed (s : ControllerState) (i : Int) :
    (ensureFrameWindow s i).isDestroyed = s.isDestroyed := by
  unfold ensureFrameWindow
  split <;> rfl

lemma ensureFrameWindow_strategy (s : ControllerState) (i : Int) :
    (ensureFrameWindow s i).strategy = s.strategy := by
  unfold ensureFrameWindow
  split <;> rfl

lemma ensureFrameWindow_lastPainted (s : ControllerState) (i : Int) :
    (ensureFrameWindow s i).lastPainted = s.lastPainted := by
  unfold ensureFrameWindow
  split <;> rfl

lemma mem_intRangeIncl {a b x : Int} (h1 : a ≤ x) (h2 : x ≤ b) :
    x ∈ intRangeIncl a b := by
  unfold intRangeIncl
  refine List.mem_map.2 ⟨(x - a).toNat, ?_, ?_⟩
  · rw [List.mem_range]; omega
  · simp only [Int.ofNat_eq_natCast]; omega

lemma frameAt_mem_ensure (s : ControllerState) (i : Int)
    (hd : s.isDestroyed = false) (h0 : 0 ≤ i)
    (h1 : i < (s.frames.length : Int))
    (hmem : frameAt s.frames i ∈ s.imageCache) :
    frameAt s.frames i ∈ (ensureFrameWindow s i).imageCache := by
  unfold ensureFrameWindow
  rw [if_neg (by simp [hd])]
  refine List.mem_filter.2 ⟨hmem, ?_⟩
  apply decide_eq_true
  refine List.mem_map.2 ⟨i, ?_, rfl⟩
  exact mem_intRangeIncl (by omega) (by omega)

lemma drawFrame_cached (s : ControllerState) (i : Int)
    (hd : s.isDestroyed = false) (h0 : 0 ≤ i)
    (h1 : i < (s.frames.length : Int))
    (hc : frameAt s.frames i ∈ s.imageCache) :
    drawFrame s i =
      { s with paintCount := s.paintCount + 1, lastPainted := some i } := by
  unfold drawFrame
  rw [if_neg (by simp [hd]; omega)]
  simp only [if_pos hc]

/-! ## Claim C9 -/

/-- Claim C9: from any live controller state whose current index differs
from the index determined by `p` and whose target frame is already in the
cache (all loads settled), two consecutive `update(p)` calls with the
same `p` paint exactly once: the first paints the target frame and
records it as last painted, the second returns without painting because
the computed frame index equals the last painted index. -/
theorem update_idempotent_single_paint (s : ControllerState) (p : ℚ)
    (hd : s.isDestroyed = false) (hne : s.frames ≠ [])
    (hp0 : 0 ≤ p) (hp1 : p ≤ 1)
    (hcur : s.currentFrameIndex ≠ frameIndexOf s.frames p)
    (hcache : frameAt s.frames (frameIndexOf s.frames p) ∈ s.imageCache) :
    (update s p).paintCount = s.paintCount + 1 ∧
    (update s p).lastPainted = some (frameIndexOf s.frames p) ∧
    (update (update s p) p).paintCount = (update s p).paintCount := by
  have hlen1 : 1 ≤ s.frames.length := List.length_pos.2 hne
  have hlen1q : (1 : ℚ) ≤ (s.frames.length : ℚ) := by exact_mod_cast hlen1
  have hi0 : 0 ≤ frameIndexOf s.frames p := by
    apply Int.le_floor.2
    push_cast
    apply mul_nonneg hp0
    linarith
  have hi1 : frameIndexOf s.frames p < (s.frames.length : Int) := by
    have hc1 : (0 : ℚ) ≤ (s.frames.length : ℚ) - 1 := by linarith
    have h2 : p * ((s.frames.length : ℚ) - 1) ≤ (s.frames.length : ℚ) - 1 :=
      mul_le_of_le_one_left hc1 hp1
    have h3 := Int.floor_le_floor h2
    have h5 : ⌊((s.frames.length : ℚ) - 1)⌋ = (s.frames.length : Int) - 1 := by
      rw [show ((s.frames.length : ℚ) - 1) = (((s.frames.length : Int) - 1 : Int) : ℚ)
        by push_cast; ring]
      exact Int.floor_intCast _
    rw [h5] at h3
    show ⌊p * ((s.frames.length : ℚ) - 1)⌋ < (s.frames.length : Int)
    omega
  obtain ⟨s1, hs1eq, hfr, hpc, hcur1, hdes, hstrat, hcm⟩ :
      ∃ s1, (if s.strategy = Strategy.lazy
          then ensureFrameWindow s (frameIndexOf s.frames p) else s) = s1 ∧
        s1.frames = s.frames ∧ s1.paintCount = s.paintCount ∧
        s1.currentFrameIndex = s.currentFrameIndex ∧ s1.isDestroyed = false ∧
        s1.strategy = s.strategy ∧
        frameAt s.frames (frameIndexOf s.frames p) ∈ s1.imageCache := by
    by_cases hstr : s.strategy = Strategy.lazy
    · rw [if_pos hstr]
      exact ⟨_, rfl, ensureFrameWindow_frames s _, ensureFrameWindow_paintCount s _,
        ensureFrameWindow_current s _, by rw [ensureFrameWindow_destroyed]; exact hd,
        ensureFrameWindow_strategy s _,
        frameAt_mem_ensure s _ hd hi0 hi1 hcache⟩
    · rw [if_neg hstr]
      exact ⟨s, rfl, rfl, rfl, rfl, hd, rfl, hcache⟩
  have hguard : ¬(s.isDestroyed = true ∨ s.frames = []) := by simp [hd, hne]
  have hu1 : update s p =
      drawFrame { s1 with currentFrameIndex := frameIndexOf s.frames p }
        (frameIndexOf s.frames p) := by
    unfold update updateIdx
    rw [if_neg hguard]
    dsimp only
    rw [hs1eq]
    rw [if_neg (fun h => hcur ((h.trans hcur1).symm))]
  have hdraw : drawFrame { s1 with currentFrameIndex := frameIndexOf s.frames p }
        (frameIndexOf s.frames p) =
      { s1 with
        currentFrameIndex := frameIndexOf s.frames p
        paintCount := s1.paintCount + 1
        lastPainted := some (frameIndexOf s.frames p) } := by
    have hfr' : ({ s1 with currentFrameIndex := frameIndexOf s.frames p} :
        ControllerState).frames = s.frames := hfr
    apply drawFrame_cached
    · exact hdes
    · exact hi0
    · rw [hfr']; exact hi1
    · rw [hfr']; exact hcm
  have hsecond : ∀ u : ControllerState, u.isDestroyed = false →
      u.frames = s.frames → u.currentFrameIndex = frameIndexOf s.frames p →
      (update u p).paintCount = u.paintCount := by
    intro u hud huf huc
    unfold update updateIdx
    rw [if_neg (by simp [hud, huf, hne])]
    dsimp only
    have hfidx : frameIndexOf u.frames p = frameIndexOf s.frames p := by rw [huf]
    rw [hfidx]
    by_cases hstr : u.strategy = Strategy.lazy
    · rw [if_pos hstr,
        if_pos (by rw [ensureFrameWindow_current]; exact huc.symm)]
      exact ensureFrameWindow_paintCount u _
    · rw [if_neg hstr, if_pos huc.symm]
  refine ⟨?_, ?_, ?_⟩
  · rw [hu1, hdraw]
    show s1.paintCount + 1 = s.paintCount + 1
    rw [hpc]
  · rw [hu1, hdraw]
  · rw [hu1, hdraw]
    exact hsecond _ hdes hfr rfl

/-- Witness for C9 at a concrete two-frame eager controller with both
frames cached. -/
theorem update_idempotent_single_paint_witness :
    (update (⟨["a", "b"], Strategy.eager, 10, ["a", "b"], [], -1, false,
        [], 0, none⟩ : ControllerState) 0).paintCount =
      (⟨["a", "b"], Strategy.eager, 10, ["a", "b"], [], -1, false,
        [], 0, none⟩ : ControllerState).paintCount + 1 ∧
    (update (⟨["a", "b"], Strategy.eager, 10, ["a", "b"], [], -1, false,
        [], 0, none⟩ : ControllerState) 0).lastPainted =
      some (frameIndexOf ["a", "b"] 0) ∧
    (update (update (⟨["a", "b"], Strategy.eager, 10, ["a", "b"], [], -1,
        false, [], 0, none⟩ : ControllerState) 0) 0).paintCount =
      (update (⟨["a", "b"], Strategy.eager, 10, ["a", "b"], [], -1, false,
        [], 0, none⟩ : ControllerState) 0).paintCount :=
  update_idempotent_single_paint
    ⟨["a", "b"], Strategy.eager, 10, ["a", "b"], [], -1, false, [], 0, none⟩
    0 rfl (by simp) le_rfl zero_le_one
    (by simp [frameIndexOf])
    (by simp [frameIndexOf, frameAt])

/-! ## Claim C6 -/

/-- Claim C6 (code bug): with ten frames, lazy strategy and buffer radius
1, construction issues loads for `f0`, `f1` (window `[0,1]`).  An update
to index 9 moves the window to `[8,9]`; the eviction loop iterates only
`imageCache` (still empty), so the in-flight load of `f0` keeps its
tracking entry, and when it completes, `loadImage`'s `onload` closure
stores `f0` into the cache unconditionally.  After the completion runs
the frame cache contains `f0` although `f0` is outside the active window
— contradicting the claim (and the source comment "We just delete the
tracking so we don't cache it when it lands"). -/
theorem lazy_late_completion_retained :
    (initController ["f0", "f1", "f2", "f3", "f4", "f5", "f6", "f7", "f8", "f9"]
        Strategy.lazy (some 1)).loadingPromises = ["f0", "f1"] ∧
    (settleLoad (update (initController
        ["f0", "f1", "f2", "f3", "f4", "f5", "f6", "f7", "f8", "f9"]
        Strategy.lazy (some 1)) 1) "f0" true).currentFrameIndex = 9 ∧
    (settleLoad (update (initController
        ["f0", "f1", "f2", "f3", "f4", "f5", "f6", "f7", "f8", "f9"]
        Strategy.lazy (some 1)) 1) "f0" true).imageCache = ["f0"] ∧
    ((windowIndices ["f0", "f1", "f2", "f3", "f4", "f5", "f6", "f7", "f8", "f9"]
        1 9).map (frameAt ["f0", "f1", "f2", "f3", "f4", "f5", "f6", "f7", "f8", "f9"]))
      = ["f8", "f9"] := by
  have hfr : (initController
      ["f0", "f1", "f2", "f3", "f4", "f5", "f6", "f7", "f8", "f9"]
      Strategy.lazy (some 1)).frames =
      ["f0", "f1", "f2", "f3", "f4", "f5", "f6", "f7", "f8", "f9"] := by decide
  have hidx : frameIndexOf (initController
      ["f0", "f1", "f2", "f3", "f4", "f5", "f6", "f7", "f8", "f9"]
      Strategy.lazy (some 1)).frames 1 = 9 := by
    rw [hfr]
    unfold frameIndexOf
    rw [show ((1 : ℚ) * (((["f0", "f1", "f2", "f3", "f4", "f5", "f6", "f7",
        "f8", "f9"] : List String).length : ℚ) - 1)) = ((9 : Int) : ℚ) by norm_num]
    exact Int.floor_intCast 9
  have hupd : update (initController
      ["f0", "f1", "f2", "f3", "f4", "f5", "f6", "f7", "f8", "f9"]
      Strategy.lazy (some 1)) 1 =
      updateIdx (initController
        ["f0", "f1", "f2", "f3", "f4", "f5", "f6", "f7", "f8", "f9"]
        Strategy.lazy (some 1)) 9 := by
    unfold update
    rw [if_neg (by decide), hidx]
  rw [hupd]
  exact ⟨by decide, by decide, by decide, by decide⟩

/-! ## Claim C8 -/

/-- Claim C8 (code bug): with 30 frames, lazy strategy and buffer radius
2, construction issues loads for indices 0..2; an update to index 29
(window `[27,29]`) issues loads for 27..29 but cannot untrack the three
still-in-flight loads (the eviction loop only visits cached entries).
After the update stabilizes at index 29 and all six pending loads settle,
the cache holds 6 entries — more than `2*bufferRadius+1 = 5` — and
contains `m0`, whose index 0 is outside `[27, 29]`. -/
theorem lazy_window_bound_violated :
    (settleLoad (settleLoad (settleLoad (settleLoad (settleLoad (settleLoad
        (update (initController ((List.range 30).map (fun i => "m" ++ toString i))
          Strategy.lazy (some 2)) 1)
        "m0" true) "m1" true) "m2" true) "m27" true) "m28" true) "m29" true).currentFrameIndex
      = 29 ∧
    ((settleLoad (settleLoad (settleLoad (settleLoad (settleLoad (settleLoad
        (update (initController ((List.range 30).map (fun i => "m" ++ toString i))
          Strategy.lazy (some 2)) 1)
        "m0" true) "m1" true) "m2" true) "m27" true) "m28" true) "m29" true).imageCache.length
      = 6 ∧
    2 * 2 + 1 <
      (settleLoad (settleLoad (settleLoad (settleLoad (settleLoad (settleLoad
        (update (initController ((List.range 30).map (fun i => "m" ++ toString i))
          Strategy.lazy (some 2)) 1)
        "m0" true) "m1" true) "m2" true) "m27" true) "m28" true) "m29" true).imageCache.length ∧
    "m0" ∈
      (settleLoad (settleLoad (settleLoad (settleLoad (settleLoad (settleLoad
        (update (initController ((List.range 30).map (fun i => "m" ++ toString i))
          Strategy.lazy (some 2)) 1)
        "m0" true) "m1" true) "m2" true) "m27" true) "m28" true) "m29" true).imageCache ∧
    ((windowIndices ((List.range 30).map (fun i => "m" ++ toString i)) 2 29).map
        (frameAt ((List.range 30).map (fun i => "m" ++ toString i))))
      = ["m27", "m28", "m29"]) := by
  have hfr : (initController ((List.range 30).map (fun i => "m" ++ toString i))
      Strategy.lazy (some 2)).frames =
      (List.range 30).map (fun i => "m" ++ toString i) := by decide
  have hidx : frameIndexOf (initController
      ((List.range 30).map (fun i => "m" ++ toString i))
      Strategy.lazy (some 2)).frames 1 = 29 := by
    rw [hfr]
    unfold frameIndexOf
    rw [show ((1 : ℚ) * ((((List.range 30).map
        (fun i => "m" ++ toString i)).length : ℚ) - 1)) = ((29 : Int) : ℚ) by
      rw [List.length_map, List.length_range]; norm_num]
    exact Int.floor_intCast 29
  have hupd : update (initController
      ((List.range 30).map (fun i => "m" ++ toString i))
      Strategy.lazy (some 2)) 1 =
      updateIdx (initController
        ((List.range 30).map (fun i => "m" ++ toString i))
        Strategy.lazy (some 2)) 29 := by
    unfold update
    rw [if_neg (by decide), hidx]
  rw [hupd]
  exact ⟨by decide, by decide, by decide, by decide, by decide⟩
